import Mathlib

/-!
Shallow embedding of the shoe-store backend's order/cart core
(`src/controllers/ordersController.js`, `src/unnamed/part_003` = cart
controller, `src/models/ordersModel.js`).

Modelling conventions:
* JavaScript numbers carrying money are modelled as `ℚ`; stock counts and
  quantities as `ℤ` (Mongo `$inc` can in principle go negative, so the type
  must not force nonnegativity).
* Mongo documents live in explicit lists inside a `DB` record; `updateOne`,
  `findOneAndUpdate` and `deleteOne` touch the first matching document, as
  they do on a keyed collection.
* `withTransaction` is modelled by returning the ORIGINAL database whenever
  the transaction body ends in an error: MongoDB rolls the session back.
* The gap between `Product.findById` and the conditional
  `Product.updateOne({_id, quantity: {$gte: q}}, {$inc ...})` is where a
  concurrent committed write can land; `createOrder` therefore takes an
  `interfere` parameter applied at that point (line index ↦ DB ↦ DB).
  `noInterference` recovers the isolated sequential execution.
* The error dispatch of the `catch` block works by substring tests on the
  thrown `Error` message, so errors are embedded together with their exact
  message strings.
-/

/-- JavaScript-style substring test on character lists: `needle` occurs as a
contiguous run in `hay`. -/
def charsHasInitial : List Char → List Char → Bool
  | [], _ => true
  | _ :: _, [] => false
  | a :: as, b :: bs => a == b && charsHasInitial as bs

/-- `hasSubstr hay needle` is `String.prototype.includes` on char lists. -/
def hasSubstr : List Char → List Char → Bool
  | [], needle => needle.isEmpty
  | h :: t, needle => charsHasInitial needle (h :: t) || hasSubstr t needle

/-- `strIncludes s pat` models JavaScript `s.includes(pat)`. -/
def strIncludes (s pat : String) : Bool :=
  hasSubstr s.toList pat.toList

/-- A hexadecimal character. -/
def isHexChar (c : Char) : Bool :=
  c.isDigit || ("abcdefABCDEF".toList.contains c)

/-- `mongoose.Types.ObjectId.isValid`: a 24-character hex string. -/
def isValidObjectId (s : String) : Bool :=
  s.length == 24 && s.toList.all isHexChar

/-- `String.prototype.trim`: drop leading and trailing whitespace. -/
def jsTrim (s : String) : String :=
  (((s.toList.dropWhile Char.isWhitespace).reverse.dropWhile Char.isWhitespace).reverse).asString

/-- `sanitizeInput` from the cart controller: trim then strip `<` and `>`. -/
def sanitizeInput (s : String) : String :=
  ((jsTrim s).toList.filter (fun c => !(c == '<' || c == '>'))).asString

/-- JavaScript truthiness of an optional string field (`undefined` and the
empty string are falsy). -/
def truthyStr : Option String → Bool
  | none => false
  | some s => !(s == "")

/-- JavaScript truthiness of an optional numeric field (`undefined` and `0`
are falsy). -/
def truthyInt : Option Int → Bool
  | none => false
  | some q => !(q == 0)

/-- A catalog product (`src/models/productsModel.js`): identity, name,
price, stock quantity and the available sizes. -/
structure Product where
  id : String
  name : String
  price : ℚ
  quantity : ℤ
  sizes : List String
deriving DecidableEq

/-- One line of a persisted order (`products` subdocument of the order
schema): product reference, quantity, size and price at purchase time. -/
structure OrderLine where
  product_id : String
  quantity : ℤ
  size : String
  price : ℚ
deriving DecidableEq

/-- A persisted order (`src/models/ordersModel.js`). -/
structure Order where
  id : String
  user_id : String
  products : List OrderLine
  subtotal : ℚ
  shipping : ℚ
  total_amount : ℚ
  order_status : String
deriving DecidableEq

/-- One cart line (`src/models/cartModel.js`). -/
structure CartItem where
  product : String
  quantity : ℤ
  size : String
  price : ℚ
deriving DecidableEq

/-- A per-user cart (`src/models/cartModel.js`). -/
structure Cart where
  user : String
  items : List CartItem
  total : ℚ
deriving DecidableEq

/-- The document store: the three collections the order/cart core touches. -/
structure DB where
  products : List Product
  orders : List Order
  carts : List Cart
deriving DecidableEq

/-- Update the first list element satisfying `p` (Mongo `updateOne`). -/
def updateFirst {α : Type} (p : α → Bool) (f : α → α) : List α → List α
  | [] => []
  | a :: rest => if p a then f a :: rest else a :: updateFirst p f rest

/-- `Product.findById`. -/
def findProduct (db : DB) (pid : String) : Option Product :=
  db.products.find? (fun p => p.id == pid)

/-- The stock quantity of the product with the given id, when it exists. -/
def stockOf (db : DB) (pid : String) : Option ℤ :=
  (findProduct db pid).map (fun p => p.quantity)

/-- `Product.updateOne({_id: pid}, {$inc: {quantity: delta}})`. -/
def adjustStock (db : DB) (pid : String) (delta : ℤ) : DB :=
  { db with
    products :=
      updateFirst (fun p => p.id == pid)
        (fun p => { p with quantity := p.quantity + delta }) db.products }

/-- The atomic conditional decrement
`Product.updateOne({_id: pid, quantity: {$gte: q}}, {$inc: {quantity: -q}})`:
`none` models `modifiedCount === 0` (no document matched the filter). -/
def decrementStock (db : DB) (pid : String) (q : ℤ) : Option DB :=
  match findProduct db pid with
  | none => none
  | some p => if q ≤ p.quantity then some (adjustStock db pid (-q)) else none

/-- `Order.findById`. -/
def findOrder (db : DB) (oid : String) : Option Order :=
  db.orders.find? (fun o => o.id == oid)

/-- `Cart.findOne({user})`. -/
def findCart (db : DB) (user : String) : Option Cart :=
  db.carts.find? (fun c => c.user == user)

/-- The pre-save middleware of the order schema: overwrite `total_amount`
with `subtotal + shipping` when they differ by more than `0.01`. -/
def orderPreSave (o : Order) : Order :=
  if 1/100 < |o.total_amount - (o.subtotal + o.shipping)| then
    { o with total_amount := o.subtotal + o.shipping }
  else o

/-- `newOrder.save()`: insert a new order document (pre-save hook applied). -/
def saveNewOrder (db : DB) (o : Order) : DB :=
  { db with orders := db.orders ++ [orderPreSave o] }

/-- `order.save()` on an existing document: replace by `_id`
(pre-save hook applied). -/
def saveExistingOrder (db : DB) (o : Order) : DB :=
  { db with
    orders := updateFirst (fun x => x.id == o.id) (fun _ => orderPreSave o) db.orders }

/-- `Cart.findOneAndUpdate({user}, {items: [], total: 0})` (no upsert). -/
def clearCart (db : DB) (user : String) : DB :=
  { db with
    carts :=
      updateFirst (fun c => c.user == user)
        (fun c => { c with items := [], total := 0 }) db.carts }

/-- Persist a cart: replace the user's cart document, or insert it when the
user had none yet. -/
def saveCart (db : DB) (user : String) (c : Cart) : DB :=
  if db.carts.any (fun x => x.user == user) then
    { db with carts := updateFirst (fun x => x.user == user) (fun _ => c) db.carts }
  else
    { db with carts := db.carts ++ [c] }

/-- The pricing helper `calculateOrderTotals` of the orders controller. -/
structure OrderTotals where
  subtotal : ℚ
  shipping : ℚ
  tax : ℚ
  total : ℚ
deriving DecidableEq

/-- `calculateOrderTotals(subtotal)`: free shipping over 100, flat 10
otherwise, 8% tax, `total = subtotal + shipping + tax`. -/
def calculateOrderTotals (subtotal : ℚ) : OrderTotals :=
  let shipping : ℚ := if 100 < subtotal then 0 else 10
  let tax : ℚ := subtotal * (8/100)
  { subtotal := subtotal, shipping := shipping, tax := tax,
    total := subtotal + shipping + tax }

/-- The errors thrown inside the `createOrder` transaction body. -/
inductive OrderErr where
  | missingFields
  | invalidIdFormat (pid : String)
  | invalidQuantity (q : ℤ)
  | productNotFound (pid : String)
  | sizeNotAvailable (size name : String)
  | insufficientStock (name : String) (avail req : ℤ)
  | inventoryConflict (name : String)
deriving DecidableEq

/-- The exact `Error` message each throw site of `createOrder` produces. -/
def errMessage : OrderErr → String
  | .missingFields => "Each product must have product_id, quantity, and size"
  | .invalidIdFormat pid => "Invalid product ID format: " ++ pid
  | .invalidQuantity q =>
      "Invalid quantity: " ++ toString q ++ ". Must be between 1 and 10"
  | .productNotFound pid => "Product with id " ++ pid ++ " not found"
  | .sizeNotAvailable size name =>
      "Size " ++ size ++ " is not available for product " ++ name
  | .insufficientStock name avail req =>
      "Insufficient quantity for product " ++ name ++ ". Available: " ++
        toString avail ++ ", Requested: " ++ toString req
  | .inventoryConflict name =>
      "Failed to update inventory for product " ++ name ++ ". Possibly sold out."

/-- The `catch` block of `createOrder`: dispatch the HTTP status by
substring tests on the thrown message. -/
def statusForCreateErr (e : OrderErr) : Nat :=
  let m := errMessage e
  if strIncludes m "Invalid" || strIncludes m "required" then 400
  else if strIncludes m "not found" || strIncludes m "not available" then 404
  else if strIncludes m "Insufficient" || strIncludes m "sold out" then 409
  else 500

/-- One entry of the request's `products` array; `none` fields model absent
or `undefined` JSON members. -/
structure ReqItem where
  product_id : Option String
  quantity : Option Int
  size : Option String
deriving DecidableEq

/-- Interference schedule: the writes concurrent transactions commit between
the stock read and the conditional decrement of the i-th line. -/
def noInterference : Nat → DB → DB := fun _ db => db

/-- The per-line loop of the `createOrder` transaction body, in source
order: field presence, ObjectId format, quantity range, product lookup,
size membership, stock check, then the atomic conditional decrement. -/
def processItems (interfere : Nat → DB → DB) :
    Nat → List ReqItem → DB → ℚ → List OrderLine →
      Except OrderErr (DB × ℚ × List OrderLine)
  | _, [], db, sub, acc => .ok (db, sub, acc)
  | i, item :: rest, db, sub, acc =>
    if !(truthyStr item.product_id && truthyInt item.quantity && truthyStr item.size) then
      .error .missingFields
    else
      let pid := item.product_id.getD ""
      if !(isValidObjectId pid) then .error (.invalidIdFormat pid)
      else
        let q : ℤ := item.quantity.getD 0
        if q ≤ 0 ∨ 10 < q then .error (.invalidQuantity q)
        else
          match findProduct db pid with
          | none => .error (.productNotFound pid)
          | some product =>
            let size := item.size.getD ""
            if !(product.sizes.contains size) then
              .error (.sizeNotAvailable size product.name)
            else if product.quantity < q then
              .error (.insufficientStock product.name product.quantity q)
            else
              let db1 := interfere i db
              match decrementStock db1 pid q with
              | none => .error (.inventoryConflict product.name)
              | some db2 =>
                processItems interfere (i + 1) rest db2
                  (sub + product.price * (q : ℚ))
                  (acc ++ [{ product_id := pid, quantity := q, size := size,
                             price := product.price }])

/-- A deterministic stand-in for the fresh `_id` Mongo mints for the new
order document. -/
def freshOrderId (db : DB) : String :=
  "order-" ++ toString db.orders.length

/-- `console.warn` line of the subtotal-mismatch check. -/
def subtotalMismatchWarn (calculated ta : ℚ) : String :=
  "Subtotal mismatch. Calculated: " ++ toString calculated ++ ", Provided: " ++
    toString ta ++ ". Using calculated value."

/-- The JSON response of `createOrder` plus the warnings it logged. -/
structure CreateResult where
  status : Nat
  body : Option Order
  log : List String
deriving DecidableEq

/-- `createOrder` (`src/controllers/ordersController.js`): validate the
products array, run the transactional per-line loop, price the order, warn
(only) on a client `total_amount` mismatch, persist the order, clear the
cart.  Any error inside the transaction rolls the session back: the
original `db` is returned. -/
def createOrder (interfere : Nat → DB → DB) (userId : String)
    (products : Option (List ReqItem)) (total_amount : Option ℚ) (db : DB) :
    CreateResult × DB :=
  match products with
  | none => ({ status := 400, body := none, log := [] }, db)
  | some items =>
    if items.isEmpty then ({ status := 400, body := none, log := [] }, db)
    else
      match processItems interfere 0 items db 0 [] with
      | .error e => ({ status := statusForCreateErr e, body := none, log := [] }, db)
      | .ok (db1, subtotal, lines) =>
        let totals := calculateOrderTotals subtotal
        let warns : List String :=
          match total_amount with
          | some ta =>
            if !(ta == 0) ∧ 1/100 < |subtotal - ta| then
              [subtotalMismatchWarn subtotal ta]
            else []
          | none => []
        let newOrder : Order :=
          { id := freshOrderId db1, user_id := userId, products := lines,
            subtotal := totals.subtotal, shipping := totals.shipping,
            total_amount := totals.total, order_status := "Pending" }
        let db2 := saveNewOrder db1 newOrder
        let db3 := clearCart db2 userId
        ({ status := 201, body := some (orderPreSave newOrder), log := warns }, db3)

/-- The five legal values of `order_status`. -/
def validStatuses : List String :=
  ["Pending", "Processing", "Shipped", "Delivered", "Cancelled"]

/-- Restore one order line's quantity onto its product's stock; the
`if (item.product_id)` guard of the source skips lines whose product no
longer resolves. -/
def restoreLine (db : DB) (l : OrderLine) : DB :=
  if (findProduct db l.product_id).isSome then adjustStock db l.product_id l.quantity
  else db

/-- The stock-restoration loop run when an order leaves `Pending` or
`Processing` for `Cancelled` (and by `deleteOrder`). -/
def restoreOrder (db : DB) (o : Order) : DB :=
  o.products.foldl restoreLine db

/-- Response of the status-update and delete endpoints. -/
structure StatusResult where
  status : Nat
  body : Option Order
deriving DecidableEq

/-- `updateOrderStatus`: validate id and status value, then inside one
transaction restore stock when cancelling from `Pending`/`Processing`, set
the new status and save (pre-save hook applied). -/
def updateOrderStatus (orderId : String) (status : Option String) (db : DB) :
    StatusResult × DB :=
  if !(isValidObjectId orderId) then ({ status := 400, body := none }, db)
  else if !(truthyStr status) then ({ status := 400, body := none }, db)
  else
    let st := status.getD ""
    if !(validStatuses.contains st) then ({ status := 400, body := none }, db)
    else
      match findOrder db orderId with
      | none => ({ status := 404, body := none }, db)
      | some o =>
        let db1 :=
          if st == "Cancelled" &&
              (o.order_status == "Pending" || o.order_status == "Processing") then
            restoreOrder db o
          else db
        let o' := { o with order_status := st }
        let db2 := saveExistingOrder db1 o'
        ({ status := 200, body := some (orderPreSave o') }, db2)

/-- The authenticated request user (`req.user`). -/
structure ReqUser where
  id : String
  role : String
deriving DecidableEq

/-- `deleteOrder`: validate id, find order, authorize (owner or admin),
restore stock when the order is still `Pending`/`Processing`, then remove
the document. -/
def deleteOrder (user : ReqUser) (orderId : String) (db : DB) :
    StatusResult × DB :=
  if !(isValidObjectId orderId) then ({ status := 400, body := none }, db)
  else
    match findOrder db orderId with
    | none => ({ status := 404, body := none }, db)
    | some o =>
      if !(user.role == "admin") && !(o.user_id == user.id) then
        ({ status := 403, body := none }, db)
      else
        let db1 :=
          if o.order_status == "Pending" || o.order_status == "Processing" then
            restoreOrder db o
          else db
        let db2 := { db1 with orders := db1.orders.filter (fun x => !(x.id == orderId)) }
        ({ status := 200, body := some o }, db2)

/-- `cart.items.findIndex(...)` as a first-match lookup by product and size. -/
def findLine (items : List CartItem) (pid sz : String) : Option CartItem :=
  items.find? (fun i => i.product == pid && i.size == sz)

/-- The cart total recomputation `items.reduce((t, i) => t + i.quantity * i.price, 0)`. -/
def recomputeTotal (items : List CartItem) : ℚ :=
  items.foldl (fun t i => t + (i.quantity : ℚ) * i.price) 0

/-- Response of the cart endpoints. -/
structure CartResult where
  status : Nat
  body : Option Cart
deriving DecidableEq

/-- `addItemToCart` (cart controller): validate inputs, check stock and
size, then either merge into the existing line of identical product+size
(rejecting when the merged quantity exceeds live stock) or push a new
line, recompute the total and save. -/
def addItemToCart (user : String) (productId : Option String)
    (quantity : Option Int) (size : Option String) (db : DB) :
    CartResult × DB :=
  if !(truthyStr productId) || !(truthyStr size) then
    ({ status := 400, body := none }, db)
  else
    let pid := productId.getD ""
    if !(isValidObjectId pid) then ({ status := 400, body := none }, db)
    else
      let sanitizedSize := sanitizeInput (size.getD "")
      let q : ℤ := quantity.getD 1
      if q ≤ 0 ∨ 10 < q then ({ status := 400, body := none }, db)
      else
        match findProduct db pid with
        | none => ({ status := 404, body := none }, db)
        | some product =>
          if product.quantity < q then ({ status := 400, body := none }, db)
          else if !(product.sizes.contains sanitizedSize) then
            ({ status := 400, body := none }, db)
          else
            let cart := (findCart db user).getD { user := user, items := [], total := 0 }
            match findLine cart.items pid sanitizedSize with
            | some existing =>
              let newQ := existing.quantity + q
              if product.quantity < newQ then ({ status := 400, body := none }, db)
              else
                let items1 :=
                  updateFirst (fun i => i.product == pid && i.size == sanitizedSize)
                    (fun i => { i with quantity := newQ }) cart.items
                let cart1 := { cart with items := items1, total := recomputeTotal items1 }
                ({ status := 201, body := some cart1 }, saveCart db user cart1)
            | none =>
              let items1 := cart.items ++
                [{ product := pid, quantity := q, size := sanitizedSize,
                   price := product.price }]
              let cart1 := { cart with items := items1, total := recomputeTotal items1 }
              ({ status := 201, body := some cart1 }, saveCart db user cart1)

/-! ### Concrete stores used to evaluate the code on explicit inputs -/

/-- A valid ObjectId for the sample product. -/
def pidA : String := "aaaaaaaaaaaaaaaaaaaaaaaa"

/-- The worked example of the spec: price 20, stock 5, sizes 9 and 10. -/
def prodA : Product :=
  { id := pidA, name := "P", price := 20, quantity := 5, sizes := ["9", "10"] }

/-- Store holding only `prodA`. -/
def dbA : DB := { products := [prodA], orders := [], carts := [] }

/-- Order line requesting three units of `prodA` in size 10. -/
def reqA : ReqItem := { product_id := some pidA, quantity := some 3, size := some "10" }

/-- A product priced at 0.1, whose 8% tax (0.008) stays under the pre-save
hook's 0.01 tolerance. -/
def prodB : Product :=
  { id := pidA, name := "B", price := 1/10, quantity := 5, sizes := ["9"] }

/-- Store holding only `prodB`. -/
def dbB : DB := { products := [prodB], orders := [], carts := [] }

/-- A valid ObjectId for the sample orders. -/
def oidC : String := "cccccccccccccccccccccccc"

/-- An order already shipped. -/
def ordC : Order :=
  { id := oidC, user_id := "u", products := [], subtotal := 10, shipping := 10,
    total_amount := 20, order_status := "Shipped" }

/-- Store holding only the shipped order `ordC`. -/
def dbC : DB := { products := [], orders := [ordC], carts := [] }

/-- A cart already holding eight units of `prodA` in size 9. -/
def cartD : Cart :=
  { user := "u", items := [{ product := pidA, quantity := 8, size := "9", price := 20 }],
    total := 160 }

/-- `prodA` with twenty units in stock, size 9 only. -/
def prodD : Product :=
  { id := pidA, name := "P", price := 20, quantity := 20, sizes := ["9"] }

/-- Store holding `prodD` and the cart `cartD`. -/
def dbD : DB := { products := [prodD], orders := [], carts := [cartD] }

/-- A product that is sold out. -/
def prodX : Product := { id := pidA, name := "X", price := 5, quantity := 0, sizes := ["9"] }

/-- A cancelled order over two units of `prodX`. -/
def ordX : Order :=
  { id := oidC, user_id := "u",
    products := [{ product_id := pidA, quantity := 2, size := "9", price := 5 }],
    subtotal := 10, shipping := 10, total_amount := 20, order_status := "Cancelled" }

/-- Store holding `prodX` and the cancelled order `ordX`. -/
def dbX : DB := { products := [prodX], orders := [ordX], carts := [] }

/-- Interference schedule that sets `prodA`'s stock to zero between the
stock read and the conditional decrement — a concurrent placement winning
the race. -/
def stealA (_i : Nat) (db : DB) : DB :=
  { db with
    products := updateFirst (fun p => p.id == pidA)
      (fun p => { p with quantity := 0 }) db.products }

/-- A pending order persisted with a `total_amount` off by half a cent. -/
def ordE : Order :=
  { id := oidC, user_id := "u", products := [], subtotal := 10, shipping := 10,
    total_amount := 4001/200, order_status := "Pending" }

/-- Store holding only the slightly-off order `ordE`. -/
def dbE : DB := { products := [], orders := [ordE], carts := [] }

/-- Request line with the `product_id` field absent. -/
def reqNoPid : ReqItem := { product_id := none, quantity := some 2, size := some "9" }

/-- Request line for one unit of the cheap product `prodB`. -/
def reqB : ReqItem := { product_id := some pidA, quantity := some 1, size := some "9" }

/-- The order `createOrder` persists for `reqA` against `dbA`. -/
def ordA : Order :=
  { id := "order-0", user_id := "u",
    products := [{ product_id := pidA, quantity := 3, size := "10", price := 20 }],
    subtotal := 60, shipping := 10, total_amount := 70, order_status := "Pending" }

/-- A pending order over two units of `prodX`. -/
def ordP : Order :=
  { id := oidC, user_id := "u",
    products := [{ product_id := pidA, quantity := 2, size := "9", price := 5 }],
    subtotal := 10, shipping := 10, total_amount := 20, order_status := "Pending" }

/-- Store holding `prodX` and the pending order `ordP`. -/
def dbP : DB := { products := [prodX], orders := [ordP], carts := [] }

/-- A shipped order over two units of `prodX`. -/
def ordS : Order :=
  { id := oidC, user_id := "u",
    products := [{ product_id := pidA, quantity := 2, size := "9", price := 5 }],
    subtotal := 10, shipping := 10, total_amount := 20, order_status := "Shipped" }

/-- Store holding `prodX` and the shipped order `ordS`. -/
def dbS : DB := { products := [prodX], orders := [ordS], carts := [] }

/-- An admin request user. -/
def adminUser : ReqUser := { id := "admin1", role := "admin" }

/-- An order whose stored total is off by five — beyond the pre-save
tolerance. -/
def ordF : Order :=
  { id := oidC, user_id := "u", products := [], subtotal := 10, shipping := 10,
    total_amount := 25, order_status := "Pending" }

/-- `ordE` as stored after a status update to `Processing`. -/
def ordE2 : Order :=
  { id := oidC, user_id := "u", products := [], subtotal := 10, shipping := 10,
    total_amount := 4001/200, order_status := "Processing" }

/-- `prodA` with only ten units in stock, size 9 only. -/
def prodD2 : Product :=
  { id := pidA, name := "P", price := 20, quantity := 10, sizes := ["9"] }

/-- Store holding `prodD2` and the cart `cartD` (eight units already). -/
def dbD2 : DB := { products := [prodD2], orders := [], carts := [cartD] }

/-- Sum of `price × quantity` over the lines of an order. -/
def linesSum : List OrderLine → ℚ
  | [] => 0
  | l :: rest => l.price * (l.quantity : ℚ) + linesSum rest

/-- Total quantity the lines of an order request for one given product. -/
def linesQty : List OrderLine → String → ℤ
  | [], _ => 0
  | l :: rest, pid => (if l.product_id = pid then l.quantity else 0) + linesQty rest pid

/-! ### Helper lemmas about first-match updates and lookups -/

theorem find?_updateFirst_found {α : Type} (p : α → Bool) (f : α → α)
    (hf : ∀ x, p x = true → p (f x) = true) (l : List α) :
    ∀ a, l.find? p = some a → (updateFirst p f l).find? p = some (f a) := by
  induction l with
  | nil => intro a h; simp [List.find?] at h
  | cons x rest ih =>
    intro a h
    by_cases hx : p x = true
    · rw [List.find?_cons_of_pos _ hx] at h
      cases h
      simp only [updateFirst]
      rw [if_pos hx, List.find?_cons_of_pos _ (hf x hx)]
    · rw [List.find?_cons_of_neg _ hx] at h
      simp only [updateFirst]
      rw [if_neg hx, List.find?_cons_of_neg _ hx]
      exact ih a h

theorem find?_updateFirst_other {α : Type} (p q : α → Bool) (f : α → α)
    (hq : ∀ x, q (f x) = q x) (hpq : ∀ x, p x = true → q x = false) (l : List α) :
    (updateFirst p f l).find? q = l.find? q := by
  induction l with
  | nil => rfl
  | cons x rest ih =>
    by_cases hx : p x = true
    · have hqx : q x = false := hpq x hx
      simp only [updateFirst]
      rw [if_pos hx, List.find?_cons_of_neg _ (by simp [hq, hqx]),
        List.find?_cons_of_neg _ (by simp [hqx])]
    · simp only [updateFirst]
      rw [if_neg hx]
      by_cases hqx : q x = true
      · rw [List.find?_cons_of_pos _ hqx, List.find?_cons_of_pos _ hqx]
      · rw [List.find?_cons_of_neg _ hqx, List.find?_cons_of_neg _ hqx]
        exact ih

theorem mem_updateFirst {α : Type} (p : α → Bool) (f : α → α) (l : List α) (x : α)
    (hx : x ∈ updateFirst p f l) : x ∈ l ∨ ∃ a, l.find? p = some a ∧ x = f a := by
  induction l with
  | nil => simp [updateFirst] at hx
  | cons y rest ih =>
    by_cases hy : p y = true
    · simp only [updateFirst] at hx
      rw [if_pos hy] at hx
      rcases List.mem_cons.mp hx with h | h
      · right; exact ⟨y, List.find?_cons_of_pos _ hy, h⟩
      · left; exact List.mem_cons_of_mem _ h
    · simp only [updateFirst] at hx
      rw [if_neg hy] at hx
      rcases List.mem_cons.mp hx with h | h
      · left; simp [h]
      · rcases ih h with h' | ⟨a, ha, hxa⟩
        · left; exact List.mem_cons_of_mem _ h'
        · right
          refine ⟨a, ?_, hxa⟩
          rw [List.find?_cons_of_neg _ hy]
          exact ha

theorem updateFirst_length {α : Type} (p : α → Bool) (f : α → α) (l : List α) :
    (updateFirst p f l).length = l.length := by
  induction l with
  | nil => rfl
  | cons x rest ih =>
    simp only [updateFirst]
    split
    · simp
    · simp [ih]

/-! ### Stock bookkeeping lemmas -/

theorem findProduct_adjustStock_self {db : DB} {pid : String} {p : Product}
    (h : findProduct db pid = some p) (d : ℤ) :
    findProduct (adjustStock db pid d) pid = some { p with quantity := p.quantity + d } := by
  unfold findProduct adjustStock
  unfold findProduct at h
  exact find?_updateFirst_found _
    (fun x => { x with quantity := x.quantity + d }) (fun x hx => hx) db.products p h

theorem stockOf_adjustStock_self {db : DB} {pid : String} {s : ℤ}
    (h : stockOf db pid = some s) (d : ℤ) :
    stockOf (adjustStock db pid d) pid = some (s + d) := by
  obtain ⟨p, hp, hval⟩ := Option.map_eq_some'.mp h
  unfold stockOf
  rw [findProduct_adjustStock_self hp d]
  simp [← hval]

theorem findProduct_adjustStock_ne {db : DB} {pid pid' : String} (h : pid ≠ pid') (d : ℤ) :
    findProduct (adjustStock db pid' d) pid = findProduct db pid := by
  apply find?_updateFirst_other
  · intro x; rfl
  · intro x hx
    simp only [beq_iff_eq] at hx
    simp [beq_eq_false_iff_ne, hx]
    exact fun e => h e.symm

theorem stockOf_adjustStock_ne {db : DB} {pid pid' : String} (h : pid ≠ pid') (d : ℤ) :
    stockOf (adjustStock db pid' d) pid = stockOf db pid := by
  unfold stockOf
  rw [findProduct_adjustStock_ne h d]

theorem decrementStock_some {db : DB} {pid : String} {q s : ℤ}
    (h : stockOf db pid = some s) (hq : q ≤ s) :
    decrementStock db pid q = some (adjustStock db pid (-q)) ∧
      stockOf (adjustStock db pid (-q)) pid = some (s - q) := by
  obtain ⟨p, hp, hval⟩ := Option.map_eq_some'.mp h
  constructor
  · unfold decrementStock
    rw [hp]
    dsimp only
    rw [if_pos (by rw [hval]; exact hq)]
  · have h2 := stockOf_adjustStock_self h (-q)
    rwa [← sub_eq_add_neg] at h2

theorem decrementStock_none {db : DB} {pid : String} {q s : ℤ}
    (h : stockOf db pid = some s) (hs : s < q) :
    decrementStock db pid q = none := by
  obtain ⟨p, hp, hval⟩ := Option.map_eq_some'.mp h
  unfold decrementStock
  rw [hp]
  dsimp only
  rw [if_neg (by rw [hval]; omega)]

theorem decrementStock_inv {db : DB} {pid : String} {q : ℤ} {db2 : DB}
    (h : decrementStock db pid q = some db2) :
    ∃ p, findProduct db pid = some p ∧ q ≤ p.quantity ∧ db2 = adjustStock db pid (-q) := by
  unfold decrementStock at h
  cases hp : findProduct db pid with
  | none => rw [hp] at h; exact absurd h (by simp)
  | some p =>
    rw [hp] at h
    dsimp only at h
    by_cases hq : q ≤ p.quantity
    · rw [if_pos hq] at h
      cases h
      exact ⟨p, rfl, hq, rfl⟩
    · rw [if_neg hq] at h; exact absurd h (by simp)

theorem restoreLine_orders (db : DB) (l : OrderLine) :
    (restoreLine db l).orders = db.orders ∧ (restoreLine db l).carts = db.carts := by
  unfold restoreLine
  split
  · exact ⟨rfl, rfl⟩
  · exact ⟨rfl, rfl⟩

theorem restore_foldl_orders (lines : List OrderLine) :
    ∀ db : DB, (lines.foldl restoreLine db).orders = db.orders ∧
      (lines.foldl restoreLine db).carts = db.carts := by
  induction lines with
  | nil => intro db; exact ⟨rfl, rfl⟩
  | cons l rest ih =>
    intro db
    simp only [List.foldl_cons]
    obtain ⟨h1, h2⟩ := ih (restoreLine db l)
    obtain ⟨g1, g2⟩ := restoreLine_orders db l
    exact ⟨h1.trans g1, h2.trans g2⟩

theorem stockOf_restore_foldl (lines : List OrderLine) :
    ∀ (db : DB) (pid : String) (s : ℤ), stockOf db pid = some s →
      stockOf (lines.foldl restoreLine db) pid = some (s + linesQty lines pid) := by
  induction lines with
  | nil =>
    intro db pid s h
    simpa [linesQty] using h
  | cons l rest ih =>
    intro db pid s h
    simp only [List.foldl_cons]
    by_cases hl : l.product_id = pid
    · have hsome : (findProduct db l.product_id).isSome = true := by
        rw [hl]
        obtain ⟨p, hp, -⟩ := Option.map_eq_some'.mp h
        simp [hp]
      have hrl : restoreLine db l = adjustStock db l.product_id l.quantity := by
        unfold restoreLine
        rw [if_pos hsome]
      have h2 : stockOf (adjustStock db l.product_id l.quantity) pid = some (s + l.quantity) := by
        rw [hl]
        exact stockOf_adjustStock_self h _
      rw [hrl, ih _ _ _ h2]
      simp only [linesQty, if_pos hl]
      congr 1
      ring
    · have hne : pid ≠ l.product_id := fun e => hl e.symm
      have hrest : ∀ db0 : DB, stockOf db0 pid = some s →
          stockOf (rest.foldl restoreLine db0) pid = some (s + linesQty (l :: rest) pid) := by
        intro db0 h0
        rw [ih _ _ _ h0]
        simp [linesQty, if_neg hl]
      cases hsome : (findProduct db l.product_id).isSome with
      | false =>
        have hrl : restoreLine db l = db := by
          unfold restoreLine
          rw [if_neg (by simp [hsome])]
        rw [hrl]
        exact hrest db h
      | true =>
        have hrl : restoreLine db l = adjustStock db l.product_id l.quantity := by
          unfold restoreLine
          rw [if_pos hsome]
        rw [hrl]
        exact hrest _ (by rw [stockOf_adjustStock_ne hne]; exact h)

theorem processItems_seq_ok (items : List ReqItem) :
    ∀ (i : Nat) (db : DB) (sub : ℚ) (acc : List OrderLine) (db' : DB) (sub' : ℚ)
      (acc' : List OrderLine),
      processItems noInterference i items db sub acc = .ok (db', sub', acc') →
      ∃ newL, acc' = acc ++ newL ∧ sub' = sub + linesSum newL ∧
        db'.orders = db.orders ∧ db'.carts = db.carts ∧
        (∀ pid s, stockOf db pid = some s →
          stockOf db' pid = some (s - linesQty newL pid)) ∧
        ((∀ p ∈ db.products, 0 ≤ p.quantity) → ∀ p ∈ db'.products, 0 ≤ p.quantity) := by
  induction items with
  | nil =>
    intro i db sub acc db' sub' acc' h
    simp only [processItems] at h
    cases h
    refine ⟨[], by simp, by simp [linesSum], rfl, rfl, ?_, fun hnn p hp => hnn p hp⟩
    intro pid s hs
    simpa [linesQty] using hs
  | cons item rest ih =>
    intro i db sub acc db' sub' acc' h
    simp only [processItems] at h
    split at h
    · exact Except.noConfusion h
    · split at h
      · exact Except.noConfusion h
      · split at h
        · exact Except.noConfusion h
        · cases hprod : findProduct db (item.product_id.getD "") with
          | none =>
            rw [hprod] at h
            exact Except.noConfusion h
          | some product =>
            rw [hprod] at h
            dsimp only at h
            split at h
            · exact Except.noConfusion h
            · split at h
              · exact Except.noConfusion h
              · simp only [noInterference] at h
                cases hdec : decrementStock db (item.product_id.getD "")
                    (item.quantity.getD 0) with
                | none =>
                  rw [hdec] at h
                  exact Except.noConfusion h
                | some db2 =>
                  rw [hdec] at h
                  dsimp only at h
                  obtain ⟨newL', h1, h2, h3, h4, h5, h6⟩ := ih _ _ _ _ _ _ _ h
                  obtain ⟨pfound, hpf, hqle, rfl⟩ := decrementStock_inv hdec
                  have hpp : pfound = product := by
                    have h0 := hpf.symm.trans hprod
                    injection h0
                  subst hpp
                  refine ⟨{ product_id := item.product_id.getD "",
                            quantity := item.quantity.getD 0,
                            size := item.size.getD "",
                            price := pfound.price } :: newL', ?_, ?_, ?_, ?_, ?_, ?_⟩
                  · rw [h1]
                    simp
                  · rw [h2]
                    simp only [linesSum]
                    ring
                  · exact h3
                  · exact h4
                  · intro pid s hs
                    by_cases hpid : item.product_id.getD "" = pid
                    · subst hpid
                      have hqs : item.quantity.getD 0 ≤ s := by
                        obtain ⟨p0, hp0, hv0⟩ := Option.map_eq_some'.mp hs
                        have h0 := hp0.symm.trans hpf
                        injection h0 with h0
                        rw [h0] at hv0
                        omega
                      have hs2 := (@decrementStock_some db (item.product_id.getD "")
                        (item.quantity.getD 0) s hs hqs).2
                      rw [h5 _ _ hs2]
                      simp [linesQty]
                      try ring
                      try omega
                    · have hs2 : stockOf (adjustStock db (item.product_id.getD "")
                          (-(item.quantity.getD 0))) pid = some s := by
                        rw [stockOf_adjustStock_ne (fun e => hpid e.symm)]
                        exact hs
                      rw [h5 _ _ hs2]
                      simp [linesQty, hpid]
                      try ring
                      try omega
                  · intro hnn
                    apply h6
                    intro p' hp'
                    rcases mem_updateFirst _ _ _ _ hp' with hmem | ⟨a, ha, rfl⟩
                    · exact hnn p' hmem
                    · have h7 : pfound = a := by
                        unfold findProduct at hpf
                        have h0 := hpf.symm.trans ha
                        injection h0
                      subst h7
                      simp only
                      omega

theorem statusForCreateErr_ne_201 (e : OrderErr) : statusForCreateErr e ≠ 201 := by
  unfold statusForCreateErr
  dsimp only
  split
  · decide
  · split
    · decide
    · split
      · decide
      · decide

theorem createOrder_of_processItems_error {f : Nat → DB → DB} {uid : String}
    {items : List ReqItem} {ta : Option ℚ} {db : DB} {e : OrderErr}
    (h : processItems f 0 items db 0 [] = .error e) :
    createOrder f uid (some items) ta db
      = ({ status := statusForCreateErr e, body := none, log := [] }, db) := by
  unfold createOrder
  have hne : items.isEmpty = false := by
    cases items with
    | nil => simp [processItems] at h
    | cons a l => rfl
  dsimp only
  rw [if_neg (by simp [hne]), h]

theorem createOrder_of_processItems_ok {f : Nat → DB → DB} {uid : String}
    {items : List ReqItem} {ta : Option ℚ} {db : DB} {db1 : DB} {sub : ℚ}
    {lines : List OrderLine} (hne : items ≠ [])
    (h : processItems f 0 items db 0 [] = .ok (db1, sub, lines)) :
    createOrder f uid (some items) ta db =
      ({ status := 201,
         body := some (orderPreSave
           { id := freshOrderId db1, user_id := uid, products := lines,
             subtotal := (calculateOrderTotals sub).subtotal,
             shipping := (calculateOrderTotals sub).shipping,
             total_amount := (calculateOrderTotals sub).total,
             order_status := "Pending" }),
         log :=
           match ta with
           | some t =>
             if !(t == 0) ∧ 1/100 < |sub - t| then [subtotalMismatchWarn sub t] else []
           | none => [] },
       clearCart
         (saveNewOrder db1
           { id := freshOrderId db1, user_id := uid, products := lines,
             subtotal := (calculateOrderTotals sub).subtotal,
             shipping := (calculateOrderTotals sub).shipping,
             total_amount := (calculateOrderTotals sub).total,
             order_status := "Pending" }) uid) := by
  unfold createOrder
  have hne' : items.isEmpty = false := by
    cases items with
    | nil => exact absurd rfl hne
    | cons a l => rfl
  dsimp only
  rw [if_neg (by simp [hne']), h]

theorem orderPreSave_spec (o : Order) :
    (orderPreSave o).subtotal = o.subtotal ∧ (orderPreSave o).shipping = o.shipping ∧
    (orderPreSave o).products = o.products ∧ (orderPreSave o).user_id = o.user_id ∧
    (orderPreSave o).order_status = o.order_status ∧ (orderPreSave o).id = o.id ∧
    (orderPreSave o).total_amount =
      (if 1/100 < |o.total_amount - (o.subtotal + o.shipping)| then o.subtotal + o.shipping
       else o.total_amount) := by
  unfold orderPreSave
  split
  · exact ⟨rfl, rfl, rfl, rfl, rfl, rfl, rfl⟩
  · exact ⟨rfl, rfl, rfl, rfl, rfl, rfl, rfl⟩

/-! ### C1 -/

/-- C1: if any step of the order-placement workflow fails — the request
completing with any status other than 201 — then the whole transaction has
rolled back: the store (products' stock, orders, carts) is exactly the one
from before the request, for every interference schedule. -/
theorem createOrder_failure_rolls_back (interfere : Nat → DB → DB) (uid : String)
    (products : Option (List ReqItem)) (ta : Option ℚ) (db : DB)
    (h : ((createOrder interfere uid products ta db).1).status ≠ 201) :
    (createOrder interfere uid products ta db).2 = db := by
  unfold createOrder at h ⊢
  cases products with
  | none => rfl
  | some items =>
    dsimp only at h ⊢
    by_cases he : items.isEmpty = true
    · rw [if_pos he]
    · rw [if_neg he] at h ⊢
      cases hp : processItems interfere 0 items db 0 [] with
      | error e => rfl
      | ok trip =>
        obtain ⟨db1, sub, lines⟩ := trip
        rw [hp] at h
        exact absurd rfl h

/-- Witness for C1 at a concrete failing request (missing `product_id`). -/
theorem createOrder_failure_rolls_back_witness :
    (((createOrder noInterference "u" (some [reqNoPid]) none dbA).1).status ≠ 201) ∧
      (createOrder noInterference "u" (some [reqNoPid]) none dbA).2 = dbA :=
  ⟨by decide, createOrder_failure_rolls_back noInterference "u" (some [reqNoPid]) none dbA
    (by decide)⟩

/-! ### C8 -/

/-- C8: a request line missing `product_id` is answered with HTTP 500
(internal error), not a 4xx client error: the thrown message
"Each product must have product_id, quantity, and size" matches none of the
`catch` block's substring tests. The rollback still happens. -/
theorem createOrder_missing_field_returns_500 :
    createOrder noInterference "u" (some [reqNoPid]) none dbA
      = ({ status := 500, body := none, log := [] }, dbA) := by decide

/-! ### C10 -/

/-- C10: the client-supplied `total_amount` never influences the result:
two placement requests identical except for `total_amount` produce the same
HTTP status, the same response order, and the same final store — only the
server-side warning log can differ. -/
theorem client_total_amount_no_influence (interfere : Nat → DB → DB) (uid : String)
    (products : Option (List ReqItem)) (ta ta' : Option ℚ) (db : DB) :
    ((createOrder interfere uid products ta db).1).status
        = ((createOrder interfere uid products ta' db).1).status ∧
    ((createOrder interfere uid products ta db).1).body
        = ((createOrder interfere uid products ta' db).1).body ∧
    (createOrder interfere uid products ta db).2
        = (createOrder interfere uid products ta' db).2 := by
  unfold createOrder
  cases products with
  | none => exact ⟨rfl, rfl, rfl⟩
  | some items =>
    dsimp only
    by_cases he : items.isEmpty = true
    · rw [if_pos he, if_pos he]
      exact ⟨rfl, rfl, rfl⟩
    · rw [if_neg he, if_neg he]
      cases hp : processItems interfere 0 items db 0 [] with
      | error e => exact ⟨rfl, rfl, rfl⟩
      | ok trip =>
        obtain ⟨db1, sub, lines⟩ := trip
        exact ⟨rfl, rfl, rfl⟩

theorem clearCart_orders (db : DB) (u : String) : (clearCart db u).orders = db.orders := rfl

theorem saveNewOrder_orders (db : DB) (o : Order) :
    (saveNewOrder db o).orders = db.orders ++ [orderPreSave o] := rfl

/-! ### C2 -/

/-- C2: the stock decrement is a conditional update. (1) With stock `s ≥ q`
it succeeds and leaves exactly `s - q`; (2) with `s < q` it modifies zero
rows; (3) a zero-rows result (a lost race, under any interference schedule)
aborts the whole placement with the conflict-taxonomy status and full
rollback; (4) a successful isolated placement leaves each product's stock
decremented by exactly the ordered quantity; (5) stock never becomes
negative through placement. -/
theorem decrementStock_conditional_update :
    (∀ (db : DB) (pid : String) (q s : ℤ), stockOf db pid = some s → q ≤ s →
        ∃ db2, decrementStock db pid q = some db2 ∧ stockOf db2 pid = some (s - q)) ∧
    (∀ (db : DB) (pid : String) (q s : ℤ), stockOf db pid = some s → s < q →
        decrementStock db pid q = none) ∧
    (∀ (f : Nat → DB → DB) (uid : String) (items : List ReqItem) (ta : Option ℚ)
        (db : DB) (nm : String),
        processItems f 0 items db 0 [] = .error (.inventoryConflict nm) →
        createOrder f uid (some items) ta db
          = ({ status := statusForCreateErr (.inventoryConflict nm), body := none,
               log := [] }, db)) ∧
    (∀ (uid : String) (items : List ReqItem) (ta : Option ℚ) (db : DB) (o : Order)
        (pid : String) (s : ℤ),
        ((createOrder noInterference uid (some items) ta db).1).body = some o →
        stockOf db pid = some s →
        stockOf (createOrder noInterference uid (some items) ta db).2 pid
          = some (s - linesQty o.products pid)) ∧
    (∀ (uid : String) (products : Option (List ReqItem)) (ta : Option ℚ) (db : DB),
        (∀ p ∈ db.products, 0 ≤ p.quantity) →
        ∀ p ∈ (createOrder noInterference uid products ta db).2.products,
          0 ≤ p.quantity) := by
  refine ⟨?_, ?_, ?_, ?_, ?_⟩
  · intro db pid q s hs hq
    exact ⟨adjustStock db pid (-q), (decrementStock_some hs hq).1, (decrementStock_some hs hq).2⟩
  · intro db pid q s hs hlt
    exact decrementStock_none hs hlt
  · intro f uid items ta db nm h
    exact createOrder_of_processItems_error h
  · intro uid items ta db o pid s hbody hs
    cases items with
    | nil => simp [createOrder] at hbody
    | cons a l =>
      cases hp : processItems noInterference 0 (a :: l) db 0 [] with
      | error e =>
        rw [createOrder_of_processItems_error hp] at hbody
        exact absurd hbody (by simp)
      | ok trip =>
        obtain ⟨db1, sub, lines⟩ := trip
        rw [createOrder_of_processItems_ok (List.cons_ne_nil a l) hp] at hbody ⊢
        obtain ⟨newL, hacc, hsub, hord, hcart, hstock, hnn⟩ :=
          processItems_seq_ok _ _ _ _ _ _ _ _ hp
        simp only [List.nil_append] at hacc
        subst hacc
        dsimp only at hbody ⊢
        injection hbody with hbody
        subst hbody
        rw [(orderPreSave_spec _).2.2.1]
        dsimp only
        exact hstock pid s hs
  · intro uid products ta db hnn
    cases products with
    | none => exact hnn
    | some items =>
      cases items with
      | nil => exact hnn
      | cons a l =>
        cases hp : processItems noInterference 0 (a :: l) db 0 [] with
        | error e =>
          rw [createOrder_of_processItems_error hp]
          exact hnn
        | ok trip =>
          obtain ⟨db1, sub, lines⟩ := trip
          rw [createOrder_of_processItems_ok (List.cons_ne_nil a l) hp]
          obtain ⟨newL, hacc, hsub, hord, hcart, hstock, hnn2⟩ :=
            processItems_seq_ok _ _ _ _ _ _ _ _ hp
          exact hnn2 hnn

-- Witness for C2: stock 5, quantity 3 succeeds leaving 2; quantity 7
-- fails; the race yields a 409 rollback; the isolated placement of
-- reqA leaves stock 5 - 3; nonnegativity holds on the result.
unseal Rat.add Rat.mul Rat.inv Rat.sub Rat.ofScientific in
theorem decrementStock_conditional_update_witness :
    (∃ db2, decrementStock dbA pidA 3 = some db2 ∧ stockOf db2 pidA = some 2) ∧
    decrementStock dbA pidA 7 = none ∧
    (createOrder stealA "u" (some [reqA]) none dbA
      = ({ status := statusForCreateErr (OrderErr.inventoryConflict "P"), body := none,
           log := [] }, dbA)) ∧
    statusForCreateErr (OrderErr.inventoryConflict "P") = 409 ∧
    stockOf (createOrder noInterference "u" (some [reqA]) none dbA).2 pidA
      = some (5 - linesQty ordA.products pidA) ∧
    (∀ p ∈ (createOrder noInterference "u" (some [reqA]) none dbA).2.products,
      0 ≤ p.quantity) :=
  ⟨decrementStock_conditional_update.1 dbA pidA 3 5 (by decide) (by decide),
   decrementStock_conditional_update.2.1 dbA pidA 7 5 (by decide) (by decide),
   decrementStock_conditional_update.2.2.1 stealA "u" [reqA] none dbA "P" rfl,
   by decide,
   decrementStock_conditional_update.2.2.2.1 "u" [reqA] none dbA ordA pidA 5
     (by decide) (by decide),
   decrementStock_conditional_update.2.2.2.2 "u" (some [reqA]) none dbA (by decide)⟩


theorem orderPreSave_total_formula (oid uid st : String) (lines : List OrderLine)
    (sub ship tax : ℚ) :
    (orderPreSave { id := oid, user_id := uid, products := lines, subtotal := sub,
                    shipping := ship, total_amount := sub + ship + tax,
                    order_status := st }).total_amount
      = (if 1/100 < |tax| then sub + ship else sub + ship + tax) := by
  unfold orderPreSave
  dsimp only
  have key : sub + ship + tax - (sub + ship) = tax := by ring
  rw [key]
  split
  · rfl
  · rfl

/-! ### C3 -/

-- C3 counterexample: a successful placement of one unit priced 0.1 stores
-- total_amount = 10.108 (the 8% tax survives, because the pre-save hook's
-- 0.01 tolerance does not trigger), while subtotal + shipping = 10.1.
unseal Rat.add Rat.mul Rat.inv Rat.sub Rat.ofScientific in
theorem createOrder_small_subtotal_keeps_tax_cex :
    (((createOrder noInterference "u" (some [reqB]) none dbB).1).status = 201) ∧
    ((createOrder noInterference "u" (some [reqB]) none dbB).1).body.map
      (fun o => o.total_amount) = some (2527/250) ∧
    ((createOrder noInterference "u" (some [reqB]) none dbB).1).body.map
      (fun o => o.subtotal + o.shipping) = some (101/10) ∧
    (2527/250 : ℚ) ≠ 101/10 := by decide

/-- C3 (amended): for every successful placement the persisted order has
`subtotal = Σ price × quantity` over its captured lines, `shipping` = flat
10 when `subtotal ≤ 100` and 0 otherwise, and `total_amount =
subtotal + shipping` exactly when the 8% tax exceeds the pre-save hook's
0.01 tolerance; otherwise the stored total still carries the tax. -/
theorem createOrder_pricing_breakdown (uid : String) (items : List ReqItem)
    (ta : Option ℚ) (db : DB)
    (h : ((createOrder noInterference uid (some items) ta db).1).status = 201) :
    ∃ o : Order,
      ((createOrder noInterference uid (some items) ta db).1).body = some o ∧
      ((createOrder noInterference uid (some items) ta db).2).orders
        = db.orders ++ [o] ∧
      o.subtotal = linesSum o.products ∧
      o.shipping = (if 100 < o.subtotal then (0:ℚ) else 10) ∧
      o.total_amount =
        (if 1/100 < |o.subtotal * (8/100)| then o.subtotal + o.shipping
         else o.subtotal + o.shipping + o.subtotal * (8/100)) := by
  cases items with
  | nil => simp [createOrder] at h
  | cons a l =>
    cases hp : processItems noInterference 0 (a :: l) db 0 [] with
    | error e =>
      rw [createOrder_of_processItems_error hp] at h
      exact absurd h (statusForCreateErr_ne_201 e)
    | ok trip =>
      obtain ⟨db1, sub, lines⟩ := trip
      rw [createOrder_of_processItems_ok (List.cons_ne_nil a l) hp]
      obtain ⟨newL, hacc, hsub, hord, hcart, hstock, hnn⟩ :=
        processItems_seq_ok _ _ _ _ _ _ _ _ hp
      simp only [List.nil_append] at hacc
      subst hacc
      refine ⟨_, rfl, ?_, ?_, ?_, ?_⟩
      · dsimp only
        rw [clearCart_orders, saveNewOrder_orders, hord]
      · rw [(orderPreSave_spec _).1, (orderPreSave_spec _).2.2.1]
        show sub = linesSum lines
        rw [hsub]
        exact zero_add _
      · rw [(orderPreSave_spec _).2.1, (orderPreSave_spec _).1]
        exact rfl
      · rw [(orderPreSave_spec _).1, (orderPreSave_spec _).2.1]
        exact orderPreSave_total_formula (freshOrderId db1) uid "Pending" lines sub
          (if 100 < sub then (0:ℚ) else 10) (sub * (8/100))

-- Witness for C3 (amended) at the spec's worked example: price 20, stock 5,
-- quantity 3 → subtotal 60, shipping 10, stored total 70.
unseal Rat.add Rat.mul Rat.inv Rat.sub Rat.ofScientific in
theorem createOrder_pricing_breakdown_witness :
    (((createOrder noInterference "u" (some [reqA]) none dbA).1).status = 201) ∧
    ∃ o : Order,
      ((createOrder noInterference "u" (some [reqA]) none dbA).1).body = some o ∧
      ((createOrder noInterference "u" (some [reqA]) none dbA).2).orders
        = dbA.orders ++ [o] ∧
      o.subtotal = linesSum o.products ∧
      o.shipping = (if 100 < o.subtotal then (0:ℚ) else 10) ∧
      o.total_amount =
        (if 1/100 < |o.subtotal * (8/100)| then o.subtotal + o.shipping
         else o.subtotal + o.shipping + o.subtotal * (8/100)) :=
  ⟨by decide, createOrder_pricing_breakdown "u" [reqA] none dbA (by decide)⟩

/-! ### C4 -/

-- C4 counterexample: a Shipped order is cancelled with HTTP 200 and the
-- status is applied, where the claim demands a client error and no change.
unseal Rat.add Rat.mul Rat.inv Rat.sub Rat.ofScientific in
theorem updateOrderStatus_no_transition_check_cex :
    ordC.order_status = "Shipped" ∧
    (((updateOrderStatus oidC (some "Cancelled") dbC).1).status = 200) ∧
    ((findOrder (updateOrderStatus oidC (some "Cancelled") dbC).2 oidC).map
      (fun o => o.order_status) = some "Cancelled") := by decide

/-- C4 (amended): the status endpoint validates only the status value, not
the source/target transition: any of the five known statuses is accepted
from any current status (including Shipped→Cancelled and backward moves)
and applied with HTTP 200; a status value outside the enumeration is a 400
client error that leaves the store unchanged. -/
theorem updateOrderStatus_value_only_validation :
    (∀ (db : DB) (oid st : String) (o : Order),
        isValidObjectId oid = true → validStatuses.contains st = true →
        findOrder db oid = some o →
        ((updateOrderStatus oid (some st) db).1).status = 200 ∧
        (findOrder (updateOrderStatus oid (some st) db).2 oid).map
            (fun x => x.order_status) = some st) ∧
    (∀ (db : DB) (oid st : String), validStatuses.contains st = false →
        updateOrderStatus oid (some st) db = ({ status := 400, body := none }, db)) := by
  constructor
  · intro db oid st o hv hst ho
    have hne : st ≠ "" := by
      intro he
      subst he
      simp [validStatuses] at hst
    have hoid : o.id = oid := by
      have := List.find?_some ho
      simpa [beq_iff_eq] using this
    unfold updateOrderStatus
    rw [if_neg (by simp [hv]), if_neg (by simp [truthyStr, hne]),
      if_neg (by show ¬(!(validStatuses.contains st)) = true; rw [hst]; decide)]
    dsimp only [Option.getD]
    rw [ho]
    dsimp only
    refine ⟨rfl, ?_⟩
    have hdb1 : (if ((st == "Cancelled") &&
        (o.order_status == "Pending" || o.order_status == "Processing")) = true then
          restoreOrder db o else db).orders = db.orders := by
      split
      · exact (restore_foldl_orders o.products db).1
      · rfl
    unfold findOrder saveExistingOrder
    dsimp only
    rw [hdb1]
    have hid : ∀ x : Order,
        ((fun x => x.id == ({ o with order_status := st } : Order).id) x) = true →
        ((fun x => x.id == ({ o with order_status := st } : Order).id)
          (orderPreSave { o with order_status := st })) = true := by
      intro x _
      show ((orderPreSave { o with order_status := st }).id == o.id) = true
      rw [(orderPreSave_spec _).2.2.2.2.2.1]
      simp
    have hfind : db.orders.find?
        (fun x => x.id == ({ o with order_status := st } : Order).id) = some o := by
      show db.orders.find? (fun x => x.id == o.id) = some o
      rw [hoid]
      exact ho
    have := find?_updateFirst_found _ _ hid db.orders o hfind
    rw [show (fun x : Order => x.id == oid) =
        (fun x : Order => x.id == ({ o with order_status := st } : Order).id) from by
      funext x
      show (x.id == oid) = (x.id == o.id)
      rw [hoid]]
    rw [this]
    simp only [Option.map_some']
    rw [(orderPreSave_spec _).2.2.2.2.1]
  · intro db oid st hst
    unfold updateOrderStatus
    by_cases hv : (!(isValidObjectId oid)) = true
    · rw [if_pos hv]
    · rw [if_neg hv]
      by_cases ht : (!(truthyStr (some st))) = true
      · rw [if_pos ht]
      · rw [if_neg ht]
        rw [if_pos (by show (!(validStatuses.contains st)) = true; rw [hst]; decide)]

-- Witness for C4 (amended): Shipped → Delivered is applied with 200; a
-- bogus status value yields 400 with the store unchanged.
unseal Rat.add Rat.mul Rat.inv Rat.sub Rat.ofScientific in
theorem updateOrderStatus_value_only_validation_witness :
    ((((updateOrderStatus oidC (some "Delivered") dbC).1).status = 200) ∧
      (findOrder (updateOrderStatus oidC (some "Delivered") dbC).2 oidC).map
        (fun x => x.order_status) = some "Delivered") ∧
    updateOrderStatus oidC (some "Bogus") dbC = ({ status := 400, body := none }, dbC) :=
  ⟨updateOrderStatus_value_only_validation.1 dbC oidC "Delivered" ordC
      (by decide) (by decide) (by decide),
   updateOrderStatus_value_only_validation.2 dbC oidC "Bogus" (by decide)⟩

theorem find?_filter_not {α : Type} (p : α → Bool) (l : List α) :
    (l.filter (fun x => !(p x))).find? p = none := by
  rw [List.find?_eq_none]
  intro x hx
  have h := (List.mem_filter.mp hx).2
  simp only [Bool.not_eq_true'] at h
  simp [h]

/-! ### C5 -/

/-- C5: cancelling an order that is still `Pending` or `Processing`
increments, inside the transaction, every referenced product's stock by the
total quantity its lines carry; deleting such an order performs the same
restoration and removes the record; deleting an order in any other status
removes the record without touching any stock. -/
theorem cancel_and_delete_restore_stock :
    (∀ (db : DB) (oid : String) (o : Order) (pid : String) (s : ℤ),
        isValidObjectId oid = true → findOrder db oid = some o →
        (o.order_status = "Pending" ∨ o.order_status = "Processing") →
        stockOf db pid = some s →
        stockOf (updateOrderStatus oid (some "Cancelled") db).2 pid
          = some (s + linesQty o.products pid)) ∧
    (∀ (user : ReqUser) (db : DB) (oid : String) (o : Order) (pid : String) (s : ℤ),
        isValidObjectId oid = true → findOrder db oid = some o →
        (user.role = "admin" ∨ o.user_id = user.id) →
        (o.order_status = "Pending" ∨ o.order_status = "Processing") →
        stockOf db pid = some s →
        stockOf (deleteOrder user oid db).2 pid = some (s + linesQty o.products pid) ∧
        findOrder (deleteOrder user oid db).2 oid = none) ∧
    (∀ (user : ReqUser) (db : DB) (oid : String) (o : Order),
        isValidObjectId oid = true → findOrder db oid = some o →
        (user.role = "admin" ∨ o.user_id = user.id) →
        ¬(o.order_status = "Pending" ∨ o.order_status = "Processing") →
        (deleteOrder user oid db).2.products = db.products ∧
        findOrder (deleteOrder user oid db).2 oid = none) := by
  refine ⟨?_, ?_, ?_⟩
  · intro db oid o pid s hv ho hstat hs
    unfold updateOrderStatus
    rw [if_neg (by simp [hv]), if_neg (by decide),
      if_neg (by decide)]
    rw [ho]
    dsimp only
    rw [if_pos (by rcases hstat with h | h <;> simp [h])]
    show stockOf (restoreOrder db o) pid = some (s + linesQty o.products pid)
    exact stockOf_restore_foldl o.products db pid s hs
  · intro user db oid o pid s hv ho hauth hstat hs
    unfold deleteOrder
    rw [if_neg (by simp [hv])]
    rw [ho]
    dsimp only
    rw [if_neg (by rcases hauth with h | h <;> simp [h])]
    rw [if_pos (by rcases hstat with h | h <;> simp [h])]
    constructor
    · show stockOf (restoreOrder db o) pid = some (s + linesQty o.products pid)
      exact stockOf_restore_foldl o.products db pid s hs
    · show ((restoreOrder db o).orders.filter (fun x => !(x.id == oid))).find?
        (fun x => x.id == oid) = none
      exact find?_filter_not _ _
  · intro user db oid o hv ho hauth hstat
    unfold deleteOrder
    rw [if_neg (by simp [hv])]
    rw [ho]
    dsimp only
    rw [if_neg (by rcases hauth with h | h <;> simp [h])]
    rw [if_neg (by simpa using hstat)]
    constructor
    · rfl
    · show (db.orders.filter (fun x => !(x.id == oid))).find?
        (fun x => x.id == oid) = none
      exact find?_filter_not _ _

-- Witness for C5: cancelling the pending order over two units of a
-- sold-out product brings its stock from 0 to 0 + 2; an admin delete does
-- the same and removes the order; deleting the shipped variant restores
-- nothing and removes the order.
unseal Rat.add Rat.mul Rat.inv Rat.sub Rat.ofScientific in
theorem cancel_and_delete_restore_stock_witness :
    (stockOf (updateOrderStatus oidC (some "Cancelled") dbP).2 pidA
      = some (0 + linesQty ordP.products pidA)) ∧
    (stockOf (deleteOrder adminUser oidC dbP).2 pidA
        = some (0 + linesQty ordP.products pidA) ∧
      findOrder (deleteOrder adminUser oidC dbP).2 oidC = none) ∧
    ((deleteOrder adminUser oidC dbS).2.products = dbS.products ∧
      findOrder (deleteOrder adminUser oidC dbS).2 oidC = none) :=
  ⟨cancel_and_delete_restore_stock.1 dbP oidC ordP pidA 0 (by decide) (by decide)
      (by decide) (by decide),
   cancel_and_delete_restore_stock.2.1 adminUser dbP oidC ordP pidA 0 (by decide)
      (by decide) (by decide) (by decide) (by decide),
   cancel_and_delete_restore_stock.2.2 adminUser dbS oidC ordS (by decide)
      (by decide) (by decide) (by decide)⟩

/-! ### C9 -/

-- C9 counterexample: an already-Cancelled order can be moved back to
-- Pending (no transition check) and cancelled again, restoring its stock a
-- second time: stock goes from 0 to 2 through requests issued after the
-- order was first Cancelled.
unseal Rat.add Rat.mul Rat.inv Rat.sub Rat.ofScientific in
theorem restore_twice_after_cancel_cex :
    ((findOrder dbX oidC).map (fun o => o.order_status) = some "Cancelled") ∧
    stockOf dbX pidA = some 0 ∧
    stockOf (updateOrderStatus oidC (some "Cancelled")
      (updateOrderStatus oidC (some "Pending") dbX).2).2 pidA = some 2 := by decide

/-- C9 (amended): a single status-update or delete request issued while the
order's current status is `Cancelled` increments no product's stock — both
restoration paths are gated on the current status being
`Pending`/`Processing`.  (Restoration is not at-most-once per order over
request sequences: reviving a Cancelled order to Pending re-arms it.) -/
theorem no_restore_on_cancelled_order :
    (∀ (db : DB) (oid : String) (st : Option String) (o : Order),
        findOrder db oid = some o → o.order_status = "Cancelled" →
        (updateOrderStatus oid st db).2.products = db.products) ∧
    (∀ (user : ReqUser) (db : DB) (oid : String) (o : Order),
        findOrder db oid = some o → o.order_status = "Cancelled" →
        (deleteOrder user oid db).2.products = db.products) := by
  constructor
  · intro db oid st o ho hC
    unfold updateOrderStatus
    by_cases hv : (!(isValidObjectId oid)) = true
    · rw [if_pos hv]
    · rw [if_neg hv]
      by_cases ht : (!(truthyStr st)) = true
      · rw [if_pos ht]
      · rw [if_neg ht]
        by_cases hcs : (!(validStatuses.contains (st.getD ""))) = true
        · rw [if_pos hcs]
        · rw [if_neg hcs]
          rw [ho]
          dsimp only
          rw [if_neg (by simp [hC])]
          rfl
  · intro user db oid o ho hC
    unfold deleteOrder
    by_cases hv : (!(isValidObjectId oid)) = true
    · rw [if_pos hv]
    · rw [if_neg hv]
      rw [ho]
      dsimp only
      by_cases hauth : ((!(user.role == "admin")) && (!(o.user_id == user.id))) = true
      · rw [if_pos hauth]
      · rw [if_neg hauth]
        rw [if_neg (by simp [hC])]

-- Witness for C9 (amended): one cancel request and one delete request on
-- the already-Cancelled order leave the product store untouched.
unseal Rat.add Rat.mul Rat.inv Rat.sub Rat.ofScientific in
theorem no_restore_on_cancelled_order_witness :
    ((updateOrderStatus oidC (some "Cancelled") dbX).2.products = dbX.products) ∧
    ((deleteOrder adminUser oidC dbX).2.products = dbX.products) :=
  ⟨no_restore_on_cancelled_order.1 dbX oidC (some "Cancelled") ordX (by decide) (by decide),
   no_restore_on_cancelled_order.2 adminUser dbX oidC ordX (by decide) (by decide)⟩

/-! ### C6 -/

-- C6 counterexample: an order persisted with total_amount = 20.005,
-- subtotal 10, shipping 10 keeps its half-cent mismatch through a
-- status-update save: the pre-save hook corrects only differences
-- exceeding 0.01, so the stored record violates total == subtotal + shipping.
unseal Rat.add Rat.mul Rat.inv Rat.sub Rat.ofScientific in
theorem order_save_tolerance_cex :
    (((updateOrderStatus oidC (some "Processing") dbE).1).status = 200) ∧
    ((findOrder (updateOrderStatus oidC (some "Processing") dbE).2 oidC).map
      (fun o => (o.total_amount, o.subtotal, o.shipping, o.order_status))
      = some (4001/200, 10, 10, "Processing")) ∧
    (4001/200 : ℚ) ≠ 10 + 10 := by decide

/-- C6 (amended): every save runs the pre-save hook, which corrects
`total_amount` to `subtotal + shipping` exactly when they differ by more
than 0.01; hence every freshly saved record satisfies
`|total_amount − (subtotal + shipping)| ≤ 0.01` (not exact equality), and
after a status update every stored order is either an untouched
pre-existing record or satisfies that tolerance bound. -/
theorem order_save_total_within_tolerance :
    (∀ o : Order, |(orderPreSave o).total_amount
        - ((orderPreSave o).subtotal + (orderPreSave o).shipping)| ≤ 1/100) ∧
    (∀ o : Order, 1/100 < |o.total_amount - (o.subtotal + o.shipping)| →
        (orderPreSave o).total_amount = o.subtotal + o.shipping) ∧
    (∀ (db : DB) (oid : String) (st : Option String) (o' : Order),
        o' ∈ (updateOrderStatus oid st db).2.orders →
        o' ∈ db.orders ∨ |o'.total_amount - (o'.subtotal + o'.shipping)| ≤ 1/100) := by
  have part1 : ∀ o : Order, |(orderPreSave o).total_amount
      - ((orderPreSave o).subtotal + (orderPreSave o).shipping)| ≤ 1/100 := by
    intro o
    unfold orderPreSave
    split
    · dsimp only
      rw [sub_self, abs_zero]
      norm_num
    · rename_i hcond
      exact le_of_not_lt hcond
  refine ⟨part1, ?_, ?_⟩
  · intro o h
    unfold orderPreSave
    rw [if_pos h]
  · intro db oid st o' hmem
    unfold updateOrderStatus at hmem
    by_cases hv : (!(isValidObjectId oid)) = true
    · rw [if_pos hv] at hmem
      exact Or.inl hmem
    · rw [if_neg hv] at hmem
      by_cases ht : (!(truthyStr st)) = true
      · rw [if_pos ht] at hmem
        exact Or.inl hmem
      · rw [if_neg ht] at hmem
        by_cases hcs : (!(validStatuses.contains (st.getD ""))) = true
        · rw [if_pos hcs] at hmem
          exact Or.inl hmem
        · rw [if_neg hcs] at hmem
          cases ho : findOrder db oid with
          | none =>
            rw [ho] at hmem
            exact Or.inl hmem
          | some o =>
            rw [ho] at hmem
            dsimp only at hmem
            have hdb1 : (if (((st.getD "") == "Cancelled") &&
                (o.order_status == "Pending" || o.order_status == "Processing")) = true then
                  restoreOrder db o else db).orders = db.orders := by
              split
              · exact (restore_foldl_orders o.products db).1
              · rfl
            unfold saveExistingOrder at hmem
            dsimp only at hmem
            rw [hdb1] at hmem
            rcases mem_updateFirst _ _ _ _ hmem with h | ⟨a, ha, rfl⟩
            · exact Or.inl h
            · right
              exact part1 _

-- Witness for C6 (amended): the hook rewrites a five-off total to
-- subtotal + shipping, and the record stored by a status update on the
-- half-cent-off order satisfies the tolerance disjunction.
unseal Rat.add Rat.mul Rat.inv Rat.sub Rat.ofScientific in
theorem order_save_total_within_tolerance_witness :
    (1/100 < |ordF.total_amount - (ordF.subtotal + ordF.shipping)| ∧
      (orderPreSave ordF).total_amount = ordF.subtotal + ordF.shipping) ∧
    (ordE2 ∈ (updateOrderStatus oidC (some "Processing") dbE).2.orders ∧
      (ordE2 ∈ dbE.orders ∨ |ordE2.total_amount - (ordE2.subtotal + ordE2.shipping)| ≤ 1/100)) :=
  ⟨⟨by decide, order_save_total_within_tolerance.2.1 ordF (by decide)⟩,
   ⟨by decide, order_save_total_within_tolerance.2.2 dbE oidC (some "Processing") ordE2
      (by decide)⟩⟩

/-! ### C7 -/

-- C7 counterexample: with eight units already in the cart line and five
-- more requested (stock 20), the merge is accepted with 201 and the line
-- quantity becomes 13, exceeding the claimed cap of 10 per line.
unseal Rat.add Rat.mul Rat.inv Rat.sub Rat.ofScientific in
theorem addItemToCart_merge_exceeds_cap_cex :
    (((addItemToCart "u" (some pidA) (some 5) (some "9") dbD).1).status = 201) ∧
    ((findCart (addItemToCart "u" (some pidA) (some 5) (some "9") dbD).2 "u").map
      (fun c => c.items.map (fun i => i.quantity)) = some [13]) ∧
    ¬ ((13:ℤ) ≤ 10) := by decide

theorem findCart_saveCart_existing {db : DB} {user : String} {c : Cart}
    (h : findCart db user = some c) (c1 : Cart) (hc1 : (c1.user == user) = true) :
    findCart (saveCart db user c1) user = some c1 := by
  unfold findCart at h
  have pc := List.find?_some h
  unfold findCart saveCart
  rw [if_pos (List.any_eq_true.mpr ⟨c, List.mem_of_find?_eq_some h, pc⟩)]
  dsimp only
  exact find?_updateFirst_found _ (fun _ => c1) (fun x _ => hc1) db.carts c h

/-- C7 (amended): adding an existing product+size line merges by summing
quantities, but the only cap on the merged line is the product's live
stock: if the merged quantity stays within stock the line is updated in
place (same number of lines, total recomputed) with 201; if it would exceed
stock the request is rejected with 400 and the store is unchanged.  The
1..10 cap applies only to the per-request quantity, which is rejected with
400 (store unchanged) when outside that range; a merged line may therefore
exceed 10. -/
theorem addItemToCart_merge_spec :
    (∀ (db : DB) (user pid : String) (q : ℤ) (szRaw : String) (product : Product)
        (c : Cart) (existing : CartItem),
        isValidObjectId pid = true → pid ≠ "" → szRaw ≠ "" →
        0 < q → q ≤ 10 →
        findProduct db pid = some product →
        q ≤ product.quantity →
        product.sizes.contains (sanitizeInput szRaw) = true →
        findCart db user = some c →
        findLine c.items pid (sanitizeInput szRaw) = some existing →
        ((existing.quantity + q ≤ product.quantity →
          ((addItemToCart user (some pid) (some q) (some szRaw) db).1).status = 201 ∧
          ∃ c', findCart (addItemToCart user (some pid) (some q) (some szRaw) db).2 user
              = some c' ∧
            findLine c'.items pid (sanitizeInput szRaw)
              = some { existing with quantity := existing.quantity + q } ∧
            c'.items.length = c.items.length ∧
            c'.total = recomputeTotal c'.items) ∧
         (product.quantity < existing.quantity + q →
          addItemToCart user (some pid) (some q) (some szRaw) db
            = ({ status := 400, body := none }, db)))) ∧
    (∀ (db : DB) (user pid szRaw : String) (q : ℤ),
        (q ≤ 0 ∨ 10 < q) → pid ≠ "" → szRaw ≠ "" → isValidObjectId pid = true →
        addItemToCart user (some pid) (some q) (some szRaw) db
          = ({ status := 400, body := none }, db)) := by
  constructor
  · intro db user pid q szRaw product c existing hvalid hpidne hszne hq0 hq10 hprod
      hstock hsize hcart hline
    unfold addItemToCart
    rw [if_neg (by simp [truthyStr, hpidne, hszne])]
    dsimp only [Option.getD]
    rw [if_neg (by simp [hvalid])]
    rw [if_neg (by omega)]
    rw [hprod]
    dsimp only
    rw [if_neg (not_lt.mpr hstock)]
    rw [if_neg (by rw [hsize]; decide)]
    rw [hcart]
    dsimp only [Option.getD]
    rw [hline]
    dsimp only
    have pc : (c.user == user) = true := by
      have h := hcart
      unfold findCart at h
      have h2 := List.find?_some h
      exact h2
    constructor
    · intro hle
      rw [if_neg (not_lt.mpr hle)]
      refine ⟨rfl, ?_⟩
      refine ⟨{ c with
          items := updateFirst (fun i => i.product == pid && i.size == sanitizeInput szRaw)
            (fun i => { i with quantity := existing.quantity + q }) c.items,
          total := recomputeTotal (updateFirst
            (fun i => i.product == pid && i.size == sanitizeInput szRaw)
            (fun i => { i with quantity := existing.quantity + q }) c.items) },
        ?_, ?_, ?_, ?_⟩
      · exact findCart_saveCart_existing hcart _ pc
      · show (updateFirst
            (fun i => i.product == pid && i.size == sanitizeInput szRaw)
            (fun i => { i with quantity := existing.quantity + q }) c.items).find?
            (fun i => i.product == pid && i.size == sanitizeInput szRaw)
            = some { existing with quantity := existing.quantity + q }
        have hline' : c.items.find?
            (fun i => i.product == pid && i.size == sanitizeInput szRaw)
            = some existing := by
          unfold findLine at hline
          exact hline
        exact find?_updateFirst_found
          (fun i => i.product == pid && i.size == sanitizeInput szRaw)
          (fun i => { i with quantity := existing.quantity + q })
          (fun x hx => hx) c.items existing hline'
      · exact updateFirst_length _ _ _
      · rfl
    · intro hgt
      rw [if_pos hgt]
  · intro db user pid szRaw q hrange hpidne hszne hvalid
    unfold addItemToCart
    rw [if_neg (by simp [truthyStr, hpidne, hszne])]
    dsimp only [Option.getD]
    rw [if_neg (by simp [hvalid])]
    rw [if_pos hrange]

-- Witness for C7 (amended): merging 8 + 5 with stock 20 yields 201 and a
-- line of 13; with stock 10 the same merge is rejected with 400 and the
-- store unchanged; a request quantity of 11 is rejected outright.
unseal Rat.add Rat.mul Rat.inv Rat.sub Rat.ofScientific in
theorem addItemToCart_merge_spec_witness :
    ((((addItemToCart "u" (some pidA) (some 5) (some "9") dbD).1).status = 201) ∧
      ∃ c', findCart (addItemToCart "u" (some pidA) (some 5) (some "9") dbD).2 "u"
          = some c' ∧
        findLine c'.items pidA (sanitizeInput "9")
          = some { product := pidA, quantity := 13, size := "9", price := 20 } ∧
        c'.items.length = cartD.items.length ∧
        c'.total = recomputeTotal c'.items) ∧
    (addItemToCart "u" (some pidA) (some 5) (some "9") dbD2
      = ({ status := 400, body := none }, dbD2)) ∧
    (addItemToCart "u" (some pidA) (some 11) (some "9") dbD
      = ({ status := 400, body := none }, dbD)) :=
  ⟨((addItemToCart_merge_spec.1 dbD "u" pidA 5 "9" prodD cartD
      { product := pidA, quantity := 8, size := "9", price := 20 }
      (by decide) (by decide) (by decide) (by decide) (by decide) (by decide)
      (by decide) (by decide) (by decide) (by decide)).1 (by decide)),
   ((addItemToCart_merge_spec.1 dbD2 "u" pidA 5 "9" prodD2 cartD
      { product := pidA, quantity := 8, size := "9", price := 20 }
      (by decide) (by decide) (by decide) (by decide) (by decide) (by decide)
      (by decide) (by decide) (by decide) (by decide)).2 (by decide)),
   addItemToCart_merge_spec.2 dbD "u" pidA "9" 11 (by decide) (by decide)
     (by decide) (by decide)⟩
